import Mathlib

/-!
Shallow embedding of `src/Prime.c` (parallel prime-number generator) and
verification of the specification's claims about it.

The program partitions `[0, ULONG_MAX)` across CPU cores, spawns one
pthread per core, each thread enumerating its sub-range, writing primes
(as decided by trial division) to its own output file, and honouring a
process-wide quit flag set by a SIGQUIT handler.
-/

namespace Prime

/-- ULONG_MAX on the LP64 target the source is compiled for (`limits.h`):
the maximum of `unsigned long`, i.e. `2^64 - 1`. -/
def ULONG_MAX : Nat := 2 ^ 64 - 1

/-- EINVAL on Linux (`errno.h`), the value the source compares the core
count against at line 68 of `Prime.c`. -/
def EINVAL : Nat := 22

/-- EXIT_SUCCESS (`stdlib.h`). -/
def EXIT_SUCCESS : Nat := 0

/-- EXIT_FAILURE (`stdlib.h`). -/
def EXIT_FAILURE : Nat := 1

/-- The spec's WorkAssignment: one worker's half-open sub-range and its
ordinal index (the fields mirror `ThreadArguments.threadNum`,
`beginCalculationsAt`, `endCalculationsAt` in `Prime.c`, with `index`
0-based as in the loop variable `iter`). -/
structure WorkAssignment where
  index : Nat
  range_start : Nat
  range_end : Nat
deriving Repr, DecidableEq

/-- The spec's `partition(domain_max, count)` operation, realised by the
source's per-thread bound computation (`Prime.c` lines 98-99):
assignment `i` gets `range_start = (domain_max / count) * i` and
`range_end = range_start + domain_max / count`, with `/` the integer
(flooring) division of C.  The source instantiates
`domain_max := ULONG_MAX` and `count := numberOfCpuCores`. -/
def partition (domainMax count : Nat) : List WorkAssignment :=
  (List.range count).map fun i =>
    { index := i
      range_start := domainMax / count * i
      range_end := domainMax / count * i + domainMax / count }

/-- The unsigned-long computation of `threadArguments[iter].beginCalculationsAt`
(`Prime.c` line 98), with the wrap-around of C unsigned arithmetic made
explicit by the reduction modulo `2^64`. -/
def beginCalculationsAt (numberOfCpuCores iter : Nat) : Nat :=
  (ULONG_MAX / numberOfCpuCores * iter) % 2 ^ 64

/-- The unsigned-long computation of `threadArguments[iter].endCalculationsAt`
(`Prime.c` line 99), with the wrap-around of C unsigned arithmetic made
explicit by the reduction modulo `2^64`. -/
def endCalculationsAt (numberOfCpuCores iter : Nat) : Nat :=
  (beginCalculationsAt numberOfCpuCores iter + ULONG_MAX / numberOfCpuCores) % 2 ^ 64

/-- `IsPrimeNumber` (`Prime.c` lines 178-188): the `for` loop runs
`denom` over `[2, num)` (the list `range' 2 (num - 2)`), returning 0 at
the first exact divisor and 1 if the loop completes; `List.all` is that
short-circuiting loop. -/
def IsPrimeNumber (num : Nat) : Bool :=
  (List.range' 2 (num - 2)).all fun denom => num % denom != 0

theorem IsPrimeNumber_eq_false_iff (num : Nat) :
    IsPrimeNumber num = false ↔ ∃ d, 2 ≤ d ∧ d < num ∧ num % d = 0 := by
  rw [← not_iff_not]
  simp only [Bool.not_eq_false, IsPrimeNumber, List.all_eq_true, List.mem_range'_1,
    bne_iff_ne, ne_eq, not_exists, not_and]
  constructor
  · intro h d h2 hdn
    exact h d ⟨h2, by omega⟩
  · intro h d hd
    exact h d hd.1 (by omega)

/-- The spec's per-worker result.  In the source, `PrimeNumberGenerator`
signals failure to open the destination by the `else` branch at lines
169-173 (diagnostic, no output); every other path is success. -/
inductive WorkerOutcome where
  | success
  | failure
deriving Repr, DecidableEq

/-- The enumeration loop of `PrimeNumberGenerator` (`Prime.c` lines
159-165): `num` runs over the candidates `beginCalculationsAt`,
`beginCalculationsAt + 1`, ... while
`num < endCalculationsAt && !receivedQuitSignal`, appending `num` to the
output when `IsPrimeNumber num`.  The candidate sequence
`[beginCalculationsAt, endCalculationsAt)` is passed as an explicit
list; the value the loop condition reads from the volatile flag
`receivedQuitSignal` at the check preceding candidate `num` is modelled
by the oracle `sig num`.  The result is the sequence of numbers written,
in write order. -/
def workerLoop (sig : Nat → Bool) : List Nat → List Nat
  | [] => []
  | num :: rest =>
    if sig num then []
    else (if IsPrimeNumber num then [num] else []) ++ workerLoop sig rest

/-- The worker body `PrimeNumberGenerator` (`Prime.c` lines 152-176):
`fopen` of the destination either succeeds (`fopenOk = true`), in which
case the enumeration loop runs and the worker is a success, or fails, in
which case nothing is written, the range is never attempted, and the
worker reports failure (the stderr diagnostic at lines 171-172).
Returns (outcome, numbers written in order). -/
def PrimeNumberGenerator (fopenOk : Bool) (sig : Nat → Bool)
    (beginAt endAt : Nat) : WorkerOutcome × List Nat :=
  if fopenOk then
    (WorkerOutcome.success, workerLoop sig (List.range' beginAt (endAt - beginAt)))
  else
    (WorkerOutcome.failure, [])

/-- The dispatch of one worker per assignment (`Prime.c` lines 91-106 and
the thread bodies): worker `i` runs `PrimeNumberGenerator` on assignment
`i`'s range, with `opens i` telling whether its own destination (the file
`PRIMES_THREAD_i.TXT`) opens.  Each worker touches only its own
assignment and destination; all share the one signal oracle. -/
def runWorkers (opens : Nat → Bool) (sig : Nat → Bool)
    (domainMax count : Nat) : List (WorkerOutcome × List Nat) :=
  (partition domainMax count).map fun a =>
    PrimeNumberGenerator (opens a.index) sig a.range_start a.range_end

/-- Initial value of the flag `receivedQuitSignal` (`Prime.c` line 51:
`receivedQuitSignal = 0`, executed before the handler is installed and
before any thread is created). -/
def receivedQuitSignalInit : Bool := false

/-- The writes the program performs on `receivedQuitSignal` after
initialisation: `handleQuitSignal` (`Prime.c` lines 147-150) stores 1;
every other access (`Prime.c` line 159) only reads the flag, leaving it
unchanged. -/
inductive SigStep : Bool → Bool → Prop
  | handler (s : Bool) : SigStep s true
  | read (s : Bool) : SigStep s s

/-- The rollback loop run after a failed `pthread_create` (`Prime.c`
lines 113-121): `while(--iter >= 0) pthread_cancel(threads[iter]);` with
`iter` of type `size_t`.  The pre-decrement wraps modulo `2^64`
(`SIZE_MAX + 1`), and the loop guard compares the unsigned result with 0.
`cancelLoop iter fuel` returns the indices passed to `pthread_cancel`
during the first `fuel` iterations, starting from the value `iter` held
when the spawn for worker `iter` failed. -/
def cancelLoop (iter : Nat) (fuel : Nat) : List Nat :=
  match fuel with
  | 0 => []
  | fuel' + 1 =>
    let iter' := (iter + (2 ^ 64 - 1)) % 2 ^ 64
    if iter' ≥ 0 then iter' :: cancelLoop iter' fuel' else []

/-- The join loop (`Prime.c` lines 130-138): for each launched worker,
`result = pthread_join(threads[iter], NULL)` overwrites `result` with
that join's return value; a nonzero value is logged but the loop
continues.  `joinRet i` is the value `pthread_join` returns for worker
`i`; the function yields the value `result` holds after the loop, the
fold starting from the `EXIT_SUCCESS` that `result` holds on entry. -/
def joinLoop (joinRet : Nat → Nat) (n : Nat) : Nat :=
  (List.range n).foldl (fun _result iter => joinRet iter) EXIT_SUCCESS

/-- The exit-status computation of `main` (`Prime.c` lines 38-145),
abstracted over its environment: `ncores` is what
`sysconf(_SC_NPROCESSORS_ONLN)` returns, `allocOk` whether both `calloc`
calls succeed, `spawnOk i` whether creating thread `i` succeeds, and
`joinRet i` what `pthread_join` returns for thread `i`.  `none` models
the spawn-failure path, whose rollback loop (`cancelLoop`) never makes
`main` return.  The branches mirror the source: the enumeration check
compares `ncores` with `EINVAL` (line 68), a failed allocation exits
with `EXIT_FAILURE` (line 88), and on full spawn success the status is
the value `result` holds after the join loop.  Thread handles produced
by successful `pthread_create` are taken to be nonzero, so the join
loop's `threads[iter] != 0` guard passes for all `n` launched workers. -/
def mainRun (ncores : Int) (allocOk : Bool) (spawnOk : Nat → Bool)
    (joinRet : Nat → Nat) : Option Nat :=
  if ncores = (EINVAL : Int) then some EXIT_FAILURE
  else if !allocOk then some EXIT_FAILURE
  else
    let n := ncores.toNat
    if (List.range n).all spawnOk then
      some (joinLoop joinRet n)
    else
      none

theorem partition_getElem? (d c i : Nat) (h : i < c) :
    (partition d c)[i]? =
      some { index := i, range_start := d / c * i, range_end := d / c * i + d / c } := by
  simp [partition, List.getElem?_map, List.getElem?_range, h]

theorem mem_partition (d c : Nat) (a : WorkAssignment) :
    a ∈ partition d c ↔ ∃ i, i < c ∧
      a = { index := i, range_start := d / c * i, range_end := d / c * i + d / c } := by
  simp [partition, List.mem_map, List.mem_range, eq_comm]

theorem partition_length (d c : Nat) : (partition d c).length = c := by
  simp [partition]

/-- C3: `IsPrimeNumber num` performs trial division by every `denom` in
`[2, num)`, returning false exactly when some such `denom` divides `num`
and true otherwise; in particular `IsPrimeNumber 0` and `IsPrimeNumber 1`
are true because the loop range `[2, num)` is empty there. -/
theorem C3_is_prime_trial_division (num : Nat) :
    (IsPrimeNumber num = false ↔ ∃ d, 2 ≤ d ∧ d < num ∧ num % d = 0) ∧
    (IsPrimeNumber num = true ↔ ∀ d, 2 ≤ d → d < num → num % d ≠ 0) ∧
    IsPrimeNumber 0 = true ∧ IsPrimeNumber 1 = true := by
  have h := IsPrimeNumber_eq_false_iff num
  refine ⟨h, ?_, by decide, by decide⟩
  constructor
  · intro ht d h2 hd hm
    have hf : IsPrimeNumber num = false := h.mpr ⟨d, h2, hd, hm⟩
    rw [ht] at hf
    exact absurd hf (by simp)
  · intro hall
    by_contra hne
    have hf : IsPrimeNumber num = false := by
      cases hIs : IsPrimeNumber num
      · rfl
      · exact absurd hIs hne
    obtain ⟨d, h2, hd, hm⟩ := h.mp hf
    exact hall d h2 hd hm

/-- C10: for `1 ≤ n` cores and worker `i < n`, the unsigned-long
computations of `beginCalculationsAt` and `endCalculationsAt` never
wrap: the reductions modulo `2^64` are identities,
`end = (i + 1) * floor(ULONG_MAX / n) ≤ ULONG_MAX`, and every worker's
range (the last included) has exactly length `ULONG_MAX / n`. -/
theorem C10_bounds_no_overflow (n i : Nat) (h : i < n) :
    beginCalculationsAt n i = ULONG_MAX / n * i ∧
    endCalculationsAt n i = beginCalculationsAt n i + ULONG_MAX / n ∧
    endCalculationsAt n i = (i + 1) * (ULONG_MAX / n) ∧
    endCalculationsAt n i ≤ ULONG_MAX ∧
    endCalculationsAt n i - beginCalculationsAt n i = ULONG_MAX / n := by
  have h1 : i + 1 ≤ n := h
  have hU : ULONG_MAX < 2 ^ 64 := by norm_num [ULONG_MAX]
  have hendU : ULONG_MAX / n * i + ULONG_MAX / n ≤ ULONG_MAX := by
    calc ULONG_MAX / n * i + ULONG_MAX / n
        = ULONG_MAX / n * (i + 1) := (Nat.mul_succ _ _).symm
      _ ≤ ULONG_MAX / n * n := Nat.mul_le_mul_left _ h1
      _ ≤ ULONG_MAX := Nat.div_mul_le_self _ _
  have hend : ULONG_MAX / n * i + ULONG_MAX / n < 2 ^ 64 := lt_of_le_of_lt hendU hU
  have hbegin : ULONG_MAX / n * i < 2 ^ 64 :=
    lt_of_le_of_lt (Nat.le_add_right _ _) hend
  have hb : beginCalculationsAt n i = ULONG_MAX / n * i := by
    unfold beginCalculationsAt
    exact Nat.mod_eq_of_lt hbegin
  have he : endCalculationsAt n i = ULONG_MAX / n * i + ULONG_MAX / n := by
    unfold endCalculationsAt
    rw [hb]
    exact Nat.mod_eq_of_lt hend
  refine ⟨hb, ?_, ?_, ?_, ?_⟩
  · rw [he, hb]
  · rw [he, Nat.mul_comm (i + 1) (ULONG_MAX / n), Nat.mul_succ]
  · rw [he]
    exact hendU
  · rw [he, hb]
    exact Nat.add_sub_self_left _ _

/-- C10 witness: concrete instance at `n = 4`, `i = 3`. -/
theorem C10_bounds_no_overflow_witness :
    3 < 4 ∧
    (beginCalculationsAt 4 3 = ULONG_MAX / 4 * 3 ∧
     endCalculationsAt 4 3 = beginCalculationsAt 4 3 + ULONG_MAX / 4 ∧
     endCalculationsAt 4 3 = (3 + 1) * (ULONG_MAX / 4) ∧
     endCalculationsAt 4 3 ≤ ULONG_MAX ∧
     endCalculationsAt 4 3 - beginCalculationsAt 4 3 = ULONG_MAX / 4) :=
  ⟨by decide, C10_bounds_no_overflow 4 3 (by decide)⟩

/-- C1 (counterexample): the claim quantifies over every `domain_max`
and every `count ≥ 1`; at `domain_max = 0`, `count = 1` the hypothesis
holds, yet the single assignment produced has
`range_start = range_end = 0`, refuting `start < end`. -/
theorem C1_counterexample :
    1 ≤ 1 ∧ (partition 0 1).length = 1 ∧
    ∀ a ∈ partition 0 1, ¬ a.range_start < a.range_end := by decide

/-- C1 (amended: additionally require `count ≤ domain_max`, which is what
`start < end` needs; the code's instantiation `domain_max = ULONG_MAX`
always satisfies it): `partition` yields exactly `count` assignments,
assignment `i` starting at `i * floor(domain_max / count)` with size
`floor(domain_max / count)` and `start < end`, ranges pairwise disjoint
and ordered by index, and the last assignment's unclamped end falls short
of `domain_max` by at most `count - 1`. -/
theorem C1_partition_amended (domainMax count : Nat)
    (h1 : 1 ≤ count) (h2 : count ≤ domainMax) :
    (partition domainMax count).length = count ∧
    (∀ i, i < count → (partition domainMax count)[i]? =
      some { index := i, range_start := i * (domainMax / count),
             range_end := i * (domainMax / count) + domainMax / count }) ∧
    (∀ (i j : Nat) (a b : WorkAssignment), (partition domainMax count)[i]? = some a →
      (partition domainMax count)[j]? = some b → i < j →
      a.range_end ≤ b.range_start) ∧
    (∀ a ∈ partition domainMax count,
      a.range_start < a.range_end ∧ a.range_end - a.range_start = domainMax / count) ∧
    (∀ a : WorkAssignment, (partition domainMax count)[count - 1]? = some a →
      a.range_end ≤ domainMax ∧ domainMax - a.range_end ≤ count - 1) := by
  have hq : 1 ≤ domainMax / count := (Nat.one_le_div_iff (by omega)).mpr h2
  refine ⟨partition_length _ _, ?_, ?_, ?_, ?_⟩
  · intro i hi
    rw [partition_getElem? _ _ _ hi]
    simp [Nat.mul_comm]
  · intro i j a b ha hb hij
    have hi : i < count := by
      have := (List.getElem?_eq_some.mp ha).1
      rwa [partition_length] at this
    have hj : j < count := by
      have := (List.getElem?_eq_some.mp hb).1
      rwa [partition_length] at this
    rw [partition_getElem? _ _ _ hi] at ha
    rw [partition_getElem? _ _ _ hj] at hb
    obtain rfl := Option.some.inj ha
    obtain rfl := Option.some.inj hb
    have hsucc : domainMax / count * (i + 1) = domainMax / count * i + domainMax / count :=
      Nat.mul_succ _ _
    have hle : domainMax / count * (i + 1) ≤ domainMax / count * j :=
      Nat.mul_le_mul_left _ hij
    simp only
    omega
  · intro a ha
    obtain ⟨i, hi, rfl⟩ := (mem_partition _ _ _).mp ha
    simp only
    omega
  · intro a ha
    rw [partition_getElem? _ _ _ (by omega : count - 1 < count)] at ha
    obtain rfl := Option.some.inj ha
    have hsucc : domainMax / count * (count - 1) + domainMax / count
        = domainMax / count * count := by
      rw [← Nat.mul_succ]
      congr 1
      omega
    have h3 : domainMax / count * count ≤ domainMax := Nat.div_mul_le_self _ _
    have hdm := Nat.div_add_mod domainMax count
    have hmod : domainMax % count < count := Nat.mod_lt _ (by omega)
    have hcomm : count * (domainMax / count) = domainMax / count * count :=
      Nat.mul_comm _ _
    simp only
    omega

/-- C1 witness: concrete instance at `domain_max = 10`, `count = 3`. -/
theorem C1_partition_amended_witness :
    (1 ≤ 3 ∧ 3 ≤ 10) ∧
    ((partition 10 3).length = 3 ∧
     (∀ i, i < 3 → (partition 10 3)[i]? =
       some { index := i, range_start := i * (10 / 3),
              range_end := i * (10 / 3) + 10 / 3 }) ∧
     (∀ (i j : Nat) (a b : WorkAssignment), (partition 10 3)[i]? = some a →
       (partition 10 3)[j]? = some b → i < j → a.range_end ≤ b.range_start) ∧
     (∀ a ∈ partition 10 3,
       a.range_start < a.range_end ∧ a.range_end - a.range_start = 10 / 3) ∧
     (∀ a : WorkAssignment, (partition 10 3)[3 - 1]? = some a →
       a.range_end ≤ 10 ∧ 10 - a.range_end ≤ 3 - 1)) :=
  ⟨⟨by decide, by decide⟩, C1_partition_amended 10 3 (by decide) (by decide)⟩

/-- C2 (counterexample): with 2 execution units the two ranges cover
exactly `[0, 2^64 - 2)`, so the number `2^64 - 2` lies in
`[0, ULONG_MAX)` yet in no assignment's range: the union does not
partition `[0, DOMAIN_MAX)`. -/
theorem C2_counterexample :
    2 ^ 64 - 2 < ULONG_MAX ∧
    ∀ a ∈ partition ULONG_MAX 2,
      ¬ (a.range_start ≤ 2 ^ 64 - 2 ∧ 2 ^ 64 - 2 < a.range_end) := by
  decide

/-- C2 (amended: the union of the assignments' half-open ranges exactly
covers `[0, count * floor(DOMAIN_MAX / count))` with no overlaps, which
falls short of `DOMAIN_MAX` by `DOMAIN_MAX mod count ≤ count - 1`; it
equals `[0, DOMAIN_MAX)` only when `count` divides `DOMAIN_MAX`). -/
theorem C2_partition_union_amended (count : Nat) (h : 1 ≤ count) :
    (∀ x : Nat, (∃ a ∈ partition ULONG_MAX count,
        a.range_start ≤ x ∧ x < a.range_end) ↔
        x < count * (ULONG_MAX / count)) ∧
    (∀ (i j : Nat) (a b : WorkAssignment),
        (partition ULONG_MAX count)[i]? = some a →
        (partition ULONG_MAX count)[j]? = some b → i ≠ j →
        ∀ x : Nat, ¬ (a.range_start ≤ x ∧ x < a.range_end ∧
          b.range_start ≤ x ∧ x < b.range_end)) ∧
    count * (ULONG_MAX / count) ≤ ULONG_MAX ∧
    ULONG_MAX - count * (ULONG_MAX / count) ≤ count - 1 := by
  have hdm := Nat.div_add_mod ULONG_MAX count
  have hmod : ULONG_MAX % count < count := Nat.mod_lt _ (by omega)
  refine ⟨?_, ?_, by omega, by omega⟩
  · intro x
    constructor
    · rintro ⟨a, ha, hx1, hx2⟩
      obtain ⟨i, hi, rfl⟩ := (mem_partition _ _ _).mp ha
      simp only at hx1 hx2
      have hsucc : ULONG_MAX / count * (i + 1)
          = ULONG_MAX / count * i + ULONG_MAX / count := Nat.mul_succ _ _
      have hle : ULONG_MAX / count * (i + 1) ≤ ULONG_MAX / count * count :=
        Nat.mul_le_mul_left _ hi
      have hcomm : count * (ULONG_MAX / count) = ULONG_MAX / count * count :=
        Nat.mul_comm _ _
      omega
    · intro hx
      by_cases hq : ULONG_MAX / count = 0
      · rw [hq, Nat.mul_zero] at hx
        omega
      · have hq0 : 0 < ULONG_MAX / count := Nat.pos_of_ne_zero hq
        have hi : x / (ULONG_MAX / count) < count :=
          (Nat.div_lt_iff_lt_mul hq0).mpr hx
        refine ⟨_, (mem_partition _ _ _).mpr ⟨x / (ULONG_MAX / count), hi, rfl⟩, ?_, ?_⟩
        · simp only
          rw [Nat.mul_comm]
          exact Nat.div_mul_le_self _ _
        · simp only
          have hxdm := Nat.div_add_mod x (ULONG_MAX / count)
          have hxmod : x % (ULONG_MAX / count) < ULONG_MAX / count :=
            Nat.mod_lt _ hq0
          omega
  · intro i j a b ha hb hne x hx
    have hi : i < count := by
      have := (List.getElem?_eq_some.mp ha).1
      rwa [partition_length] at this
    have hj : j < count := by
      have := (List.getElem?_eq_some.mp hb).1
      rwa [partition_length] at this
    rw [partition_getElem? _ _ _ hi] at ha
    rw [partition_getElem? _ _ _ hj] at hb
    obtain rfl := Option.some.inj ha
    obtain rfl := Option.some.inj hb
    simp only at hx
    have hsi : ULONG_MAX / count * (i + 1)
        = ULONG_MAX / count * i + ULONG_MAX / count := Nat.mul_succ _ _
    have hsj : ULONG_MAX / count * (j + 1)
        = ULONG_MAX / count * j + ULONG_MAX / count := Nat.mul_succ _ _
    rcases Nat.lt_or_ge i j with hij | hji
    · have hle : ULONG_MAX / count * (i + 1) ≤ ULONG_MAX / count * j :=
        Nat.mul_le_mul_left _ hij
      omega
    · have hij' : j < i := by omega
      have hle : ULONG_MAX / count * (j + 1) ≤ ULONG_MAX / count * i :=
        Nat.mul_le_mul_left _ hij'
      omega

/-- C2 witness: concrete instance of the amended statement at
`count = 2`. -/
theorem C2_partition_union_amended_witness :
    1 ≤ 2 ∧
    ((∀ x : Nat, (∃ a ∈ partition ULONG_MAX 2,
        a.range_start ≤ x ∧ x < a.range_end) ↔
        x < 2 * (ULONG_MAX / 2)) ∧
     (∀ (i j : Nat) (a b : WorkAssignment),
        (partition ULONG_MAX 2)[i]? = some a →
        (partition ULONG_MAX 2)[j]? = some b → i ≠ j →
        ∀ x : Nat, ¬ (a.range_start ≤ x ∧ x < a.range_end ∧
          b.range_start ≤ x ∧ x < b.range_end)) ∧
     2 * (ULONG_MAX / 2) ≤ ULONG_MAX ∧
     ULONG_MAX - 2 * (ULONG_MAX / 2) ≤ 2 - 1) :=
  ⟨by decide, C2_partition_union_amended 2 (by decide)⟩

theorem workerLoop_eq_filter (sig : Nat → Bool) (hs : ∀ n, sig n = false)
    (l : List Nat) : workerLoop sig l = l.filter IsPrimeNumber := by
  induction l with
  | nil => rfl
  | cons a l ih =>
    cases hp : IsPrimeNumber a <;>
      simp [workerLoop, hs a, List.filter_cons, hp, ih]

theorem workerLoop_mem_sig_false (sig : Nat → Bool) (l : List Nat) :
    ∀ x ∈ workerLoop sig l, sig x = false := by
  induction l with
  | nil => simp [workerLoop]
  | cons a l ih =>
    intro x hx
    rw [workerLoop] at hx
    by_cases ha : sig a
    · simp [ha] at hx
    · rw [if_neg (by simp [ha])] at hx
      rcases List.mem_append.mp hx with h1 | h2
      · have hxa : x = a := by
          by_cases hp : IsPrimeNumber a <;> simp [hp] at h1
          exact h1
        rw [hxa]
        exact Bool.eq_false_iff.mpr ha
      · exact ih x h2

theorem workerLoop_range'_head_set (sig : Nat → Bool) (b n : Nat)
    (hb : sig b = true) : workerLoop sig (List.range' b n) = [] := by
  cases n with
  | zero => rfl
  | succ n =>
    rw [List.range'_succ, workerLoop, if_pos hb]

/-- C4: a worker whose destination opens and whose cancellation signal
is never observed set reports success and writes exactly the numbers of
its half-open range satisfying `IsPrimeNumber`, in strictly ascending
order; for the range `[10, 20)` it writes exactly `11, 13, 17, 19`. -/
theorem C4_worker_success_writes (sig : Nat → Bool) (b e : Nat)
    (hs : ∀ n, sig n = false) :
    (PrimeNumberGenerator true sig b e).1 = WorkerOutcome.success ∧
    (PrimeNumberGenerator true sig b e).2 =
      (List.range' b (e - b)).filter IsPrimeNumber ∧
    List.Pairwise (· < ·) (PrimeNumberGenerator true sig b e).2 ∧
    (∀ x : Nat, x ∈ (PrimeNumberGenerator true sig b e).2 ↔
      b ≤ x ∧ x < e ∧ IsPrimeNumber x = true) ∧
    (PrimeNumberGenerator true sig 10 20).2 = [11, 13, 17, 19] := by
  have hw : ∀ b' e' : Nat, (PrimeNumberGenerator true sig b' e').2 =
      (List.range' b' (e' - b')).filter IsPrimeNumber := by
    intro b' e'
    simp [PrimeNumberGenerator, workerLoop_eq_filter sig hs]
  refine ⟨rfl, hw b e, ?_, ?_, ?_⟩
  · rw [hw]
    exact (List.pairwise_lt_range' b (e - b)).sublist (List.filter_sublist _)
  · intro x
    rw [hw]
    simp only [List.mem_filter, List.mem_range'_1]
    constructor
    · rintro ⟨⟨h1, h2⟩, h3⟩
      exact ⟨h1, by omega, h3⟩
    · rintro ⟨h1, h2, h3⟩
      exact ⟨⟨h1, by omega⟩, h3⟩
  · rw [hw 10 20]
    decide

/-- C4 witness: concrete instance with the never-set signal and the
range `[10, 20)`. -/
theorem C4_worker_success_writes_witness :
    (∀ n : Nat, (fun _ : Nat => false) n = false) ∧
    ((PrimeNumberGenerator true (fun _ : Nat => false) 10 20).1 = WorkerOutcome.success ∧
     (PrimeNumberGenerator true (fun _ : Nat => false) 10 20).2 =
       (List.range' 10 (20 - 10)).filter IsPrimeNumber ∧
     List.Pairwise (· < ·) (PrimeNumberGenerator true (fun _ : Nat => false) 10 20).2 ∧
     (∀ x : Nat, x ∈ (PrimeNumberGenerator true (fun _ : Nat => false) 10 20).2 ↔
       10 ≤ x ∧ x < 20 ∧ IsPrimeNumber x = true) ∧
     (PrimeNumberGenerator true (fun _ : Nat => false) 10 20).2 = [11, 13, 17, 19]) :=
  ⟨fun _ => rfl, C4_worker_success_writes (fun _ => false) 10 20 (fun _ => rfl)⟩

/-- C5: the worker reads the signal before each candidate, so every
written number was checked with the signal still unset; under a
monotone (once set, stays set) signal no write happens at or after a
set point, a worker that opened its destination reports success
regardless of cancellation, and a signal already set at `range_start`
yields zero writes. -/
theorem C5_cooperative_cancellation (sig : Nat → Bool) (fopenOk : Bool)
    (b e : Nat)
    (hmono : ∀ m n : Nat, m ≤ n → sig m = true → sig n = true) :
    (∀ x, x ∈ (PrimeNumberGenerator fopenOk sig b e).2 → sig x = false) ∧
    (∀ c x : Nat, sig c = true →
      x ∈ (PrimeNumberGenerator fopenOk sig b e).2 → x < c) ∧
    (fopenOk = true →
      (PrimeNumberGenerator fopenOk sig b e).1 = WorkerOutcome.success) ∧
    (sig b = true → (PrimeNumberGenerator fopenOk sig b e).2 = []) := by
  have hmem : ∀ x, x ∈ (PrimeNumberGenerator fopenOk sig b e).2 → sig x = false := by
    intro x hx
    cases fopenOk with
    | false => simp [PrimeNumberGenerator] at hx
    | true =>
      simp only [PrimeNumberGenerator, if_pos] at hx
      exact workerLoop_mem_sig_false sig _ x hx
  refine ⟨hmem, ?_, ?_, ?_⟩
  · intro c x hc hx
    by_contra hge
    have : sig x = true := hmono c x (by omega) hc
    rw [hmem x hx] at this
    exact absurd this (by simp)
  · intro h
    rw [h]
    rfl
  · intro hb
    cases fopenOk with
    | false => rfl
    | true =>
      simp only [PrimeNumberGenerator, if_pos]
      exact workerLoop_range'_head_set sig b _ hb

/-- C5 witness: concrete instance with the signal already set before the
worker begins (range `[5, 9)`, destination opens). -/
theorem C5_cooperative_cancellation_witness :
    (∀ m n : Nat, m ≤ n → (fun _ : Nat => true) m = true →
      (fun _ : Nat => true) n = true) ∧
    ((∀ x, x ∈ (PrimeNumberGenerator true (fun _ : Nat => true) 5 9).2 →
        (fun _ : Nat => true) x = false) ∧
     (∀ c x : Nat, (fun _ : Nat => true) c = true →
        x ∈ (PrimeNumberGenerator true (fun _ : Nat => true) 5 9).2 → x < c) ∧
     (true = true →
        (PrimeNumberGenerator true (fun _ : Nat => true) 5 9).1 = WorkerOutcome.success) ∧
     ((fun _ : Nat => true) 5 = true →
        (PrimeNumberGenerator true (fun _ : Nat => true) 5 9).2 = [])) :=
  ⟨fun _ _ _ h => h,
   C5_cooperative_cancellation (fun _ => true) true 5 9 (fun _ _ _ h => h)⟩

theorem runWorkers_getElem? (opens sig : Nat → Bool) (d c j : Nat)
    (hj : j < c) :
    (runWorkers opens sig d c)[j]? =
      some (PrimeNumberGenerator (opens j) sig (d / c * j) (d / c * j + d / c)) := by
  simp [runWorkers, List.getElem?_map, partition_getElem? d c j hj]

/-- C8: if worker `k`'s destination fails to open (and only its own), it
writes nothing, never attempts its range, and reports failure, while
every sibling still reports success and writes exactly the
`IsPrimeNumber` members of its own assigned range. -/
theorem C8_destination_failure_local (opens sig : Nat → Bool)
    (domainMax count k : Nat) (hk : k < count) (hopen : opens k = false)
    (hothers : ∀ j : Nat, j ≠ k → opens j = true)
    (hs : ∀ n, sig n = false) :
    (runWorkers opens sig domainMax count)[k]? =
      some (WorkerOutcome.failure, []) ∧
    (∀ j : Nat, j < count → j ≠ k →
      (runWorkers opens sig domainMax count)[j]? =
        some (WorkerOutcome.success,
          (List.range' (domainMax / count * j)
            (domainMax / count)).filter IsPrimeNumber)) := by
  constructor
  · rw [runWorkers_getElem? opens sig domainMax count k hk]
    simp [PrimeNumberGenerator, hopen]
  · intro j hj hne
    rw [runWorkers_getElem? opens sig domainMax count j hj]
    simp [PrimeNumberGenerator, hothers j hne,
      workerLoop_eq_filter sig hs, Nat.add_sub_cancel_left]

/-- C8 witness: three workers over `[0, 30)`, worker 1's destination
fails to open, signal never set. -/
theorem C8_destination_failure_local_witness :
    (1 < 3 ∧ (fun i : Nat => i != 1) 1 = false ∧
     (∀ j : Nat, j ≠ 1 → (fun i : Nat => i != 1) j = true) ∧
     (∀ n : Nat, (fun _ : Nat => false) n = false)) ∧
    ((runWorkers (fun i : Nat => i != 1) (fun _ : Nat => false) 30 3)[1]? =
      some (WorkerOutcome.failure, []) ∧
     (∀ j : Nat, j < 3 → j ≠ 1 →
      (runWorkers (fun i : Nat => i != 1) (fun _ : Nat => false) 30 3)[j]? =
        some (WorkerOutcome.success,
          (List.range' (30 / 3 * j) (30 / 3)).filter IsPrimeNumber))) :=
  ⟨⟨by decide, by decide, fun j hj => by simpa using hj, fun _ => rfl⟩,
   C8_destination_failure_local (fun i => i != 1) (fun _ => false) 30 3 1
     (by decide) (by decide) (fun j hj => by simpa using hj) (fun _ => rfl)⟩

/-- C9: the quit flag starts false (`receivedQuitSignal = 0` at startup)
and the program's only subsequent accesses are the handler's store of 1
and plain reads; hence every step is monotone, the only state-changing
step is the handler's false-to-true transition, and once true the flag
stays true along any execution. -/
theorem C9_signal_monotone_once :
    receivedQuitSignalInit = false ∧
    (∀ s s' : Bool, SigStep s s' → s = true → s' = true) ∧
    (∀ s s' : Bool, SigStep s s' → s ≠ s' → s = false ∧ s' = true) ∧
    (∀ s : Bool, Relation.ReflTransGen SigStep true s → s = true) := by
  refine ⟨rfl, ?_, ?_, ?_⟩
  · intro s s' h hs
    cases h with
    | handler => rfl
    | read => exact hs
  · intro s s' h hne
    cases h with
    | handler =>
      cases s with
      | false => exact ⟨rfl, rfl⟩
      | true => exact absurd rfl hne
    | read => exact absurd rfl hne
  · intro s h
    induction h with
    | refl => rfl
    | tail _ hstep ih =>
      cases hstep with
      | handler => rfl
      | read => exact ih

/-- C6: the rollback loop after a failed `pthread_create` decrements a
`size_t` index, so its guard `--iter >= 0` is always true: the loop
performs one cancellation per unit of fuel for arbitrary fuel (it never
exits), and after cancelling workers `k-1 .. 0` it wraps to
`2^64 - 1` and keeps issuing cancellations at out-of-range indices —
concretely, a spawn failure at `k = 1` cancels index `0` and then index
`2^64 - 1`, which is not a previously launched worker; a spawn failure
at `k = 0` immediately cancels index `2^64 - 1`. -/
theorem C6_cancel_loop_never_terminates :
    (∀ iter fuel : Nat, (cancelLoop iter fuel).length = fuel) ∧
    cancelLoop 1 2 = [0, 2 ^ 64 - 1] ∧
    ¬ (2 ^ 64 - 1 < 1) ∧
    cancelLoop 0 1 = [2 ^ 64 - 1] := by
  refine ⟨?_, by decide, by decide, by decide⟩
  intro iter fuel
  induction fuel generalizing iter with
  | zero => rfl
  | succ n ih => simp [cancelLoop, ih]

/-- C7: evaluations of `main`'s exit-status computation refuting the
claimed policy: join failure on any worker but the last joined is
overwritten and the process exits 0; an enumeration result of 0 units
exits 0; an enumeration result of 22 units (EINVAL's value) exits 1
despite being a fully successful environment; a spawn failure never
reaches an exit at all (the rollback loop does not terminate); the
allocation-failure and full-success cases do follow the claim. -/
theorem C7_exit_status_divergences :
    mainRun 2 true (fun _ => true) (fun i => if i = 0 then 3 else 0) =
      some EXIT_SUCCESS ∧
    mainRun 0 true (fun _ => true) (fun _ => 0) = some EXIT_SUCCESS ∧
    mainRun 22 true (fun _ => true) (fun _ => 0) = some EXIT_FAILURE ∧
    mainRun 2 true (fun i => i != 0) (fun _ => 0) = none ∧
    mainRun 2 false (fun _ => true) (fun _ => 0) = some EXIT_FAILURE ∧
    mainRun 4 true (fun _ => true) (fun _ => 0) = some EXIT_SUCCESS :=
  ⟨by decide, by decide, by decide, by decide, by decide, by decide⟩

end Prime
